import Mathlib

/-!
A shallow embedding of the event-loop core in src/ae.go.

Modelling conventions:
- Go `map[int]*AeFileEvent` becomes a total function `Int → Option AeFileEvent`;
  the Go code deletes by storing `nil`, which is observationally the same as
  removing the key, so deletion stores `none`.
- The pointer-linked timer list (`next` fields) becomes `List AeTimeEvent`.
  The in-place write `te.when = ...` in AeProcessEvents becomes an update of
  the list entry carrying the same id: ids are assigned by a monotone counter,
  so at most one linked node carries a given id and it is the collected node.
- Wall-clock reads (`GetMsTime`, `time.Now().UnixMilli`) become explicit
  `Int` parameters supplied by the environment, one per read site.
- The kernel epoll instance referred to by `epollFd` is modelled as a field
  `epoll : Int → Option Nat` of the loop (the loop exclusively owns it),
  mapping a descriptor to its registered interest bitmask. `epollCtl` follows
  epoll_ctl(2): ADD fails on a present descriptor (EEXIST), MOD fails on an
  absent one (ENOENT) and otherwise REPLACES the stored event mask with the
  one supplied, DEL fails on an absent one and otherwise removes the entry.
  A failing call returns an error and leaves the kernel state unchanged.
- Callbacks receive the loop and may mutate it reentrantly. To keep the
  structures first-order, events store a `Nat` tag and the dispatcher takes
  an interpretation `CbEnv` mapping tags to state transformers; `clientData`
  (Go `interface\x7b\x7d`) is modelled as an uninterpreted `Nat` payload.
- Dispatch produces a `TraceEv` list recording each callback invocation, so
  that firing order and cancellation can be stated.
-/

inductive FeType
  | AE_READABLE
  | AE_WRITABLE
deriving DecidableEq, Repr

inductive TeType
  | AE_NORMAL
  | AE_ONCE
deriving DecidableEq, Repr

structure AeFileEvent where
  fd : Int
  mask : FeType
  fileProc : Nat
  clientData : Nat
deriving DecidableEq, Repr

structure AeTimeEvent where
  id : Nat
  mask : TeType
  when : Int
  duration : Int
  timeProc : Nat
  clientData : Nat
deriving DecidableEq, Repr

structure AeEventLoop where
  FileEvents : Int → Option AeFileEvent
  TimeEventHead : List AeTimeEvent
  epoll : Int → Option Nat
  timeEventNextId : Nat
  stop : Bool

/-- Callback interpretations: a tag names the effect a Go callback performs
on the loop. `fileCb tag loop fd clientData` and `timeCb tag loop id clientData`
return the mutated loop. -/
structure CbEnv where
  fileCb : Nat → AeEventLoop → Int → Nat → AeEventLoop
  timeCb : Nat → AeEventLoop → Nat → Nat → AeEventLoop

/-- Events a dispatch run records: which callback fired, in order. -/
inductive TraceEv
  | teFired (id : Nat)
  | feFired (fd : Int) (mask : FeType)
deriving DecidableEq, Repr

def EPOLLIN : Nat := 1
def EPOLLOUT : Nat := 4

inductive EpollOp
  | add
  | mod
  | del
deriving DecidableEq, Repr

/-- Pointwise update of a function-backed map. -/
def setKey {α : Type} (m : Int → Option α) (k : Int) (v : Option α) : Int → Option α :=
  fun x => if x = k then v else m x

/-- epoll_ctl(2) on the modelled kernel state. Returns the new state and an
error flag (`true` = the call failed); a failed call changes nothing. -/
def epollCtl (ep : Int → Option Nat) (op : EpollOp) (fd : Int) (events : Nat) :
    (Int → Option Nat) × Bool :=
  match op with
  | EpollOp.add =>
    match ep fd with
    | some _ => (ep, true)
    | none => (setKey ep fd (some events), false)
  | EpollOp.mod =>
    match ep fd with
    | some _ => (setKey ep fd (some events), false)
    | none => (ep, true)
  | EpollOp.del =>
    match ep fd with
    | some _ => (setKey ep fd none, false)
    | none => (ep, true)

/-- src/ae.go:56. Readable keys by the descriptor, writable by its negation. -/
def getFeKey (fd : Int) (mask : FeType) : Int :=
  if mask = FeType.AE_READABLE then fd else fd * -1

/-- src/ae.go:64. -/
def getEpollEvent (mask : FeType) : Nat :=
  if mask = FeType.AE_READABLE then EPOLLIN else EPOLLOUT

/-- src/ae.go:72 (the EpollCreate1 failure branch is outside this model). -/
def AeCreateEventLoop : AeEventLoop where
  FileEvents := fun _ => none
  TimeEventHead := []
  epoll := fun _ => none
  timeEventNextId := 1
  stop := false

/-- src/ae.go:89. True when the descriptor already has a registration in
either direction. -/
def hasAnyFileEvent (loop : AeEventLoop) (fd : Int) : Bool :=
  (loop.FileEvents (getFeKey fd FeType.AE_READABLE)).isSome ||
    (loop.FileEvents (getFeKey fd FeType.AE_WRITABLE)).isSome

/-- src/ae.go:88-91. The epoll_ctl op AeCreateFileEvent selects. -/
def feCtlOp (loop : AeEventLoop) (fd : Int) : EpollOp :=
  if hasAnyFileEvent loop fd then EpollOp.mod else EpollOp.add

/-- src/ae.go:86-109. On epoll_ctl failure the function logs and returns
before storing the event; on success it stores the event under its key. -/
def AeCreateFileEvent (loop : AeEventLoop) (fd : Int) (mask : FeType)
    (proc : Nat) (clientData : Nat) : AeEventLoop :=
  let r := epollCtl loop.epoll (feCtlOp loop fd) fd (getEpollEvent mask)
  if r.2 then { loop with epoll := r.1 }
  else
    { loop with
      epoll := r.1
      FileEvents := setKey loop.FileEvents (getFeKey fd mask)
        (some { fd := fd, mask := mask, fileProc := proc, clientData := clientData }) }

/-- src/ae.go:112-125. The map entry is cleared first (Go stores nil);
the epoll_ctl DEL result is only logged. -/
def AeDeleteFileEvent (loop : AeEventLoop) (fd : Int) (mask : FeType) : AeEventLoop :=
  let l1 := { loop with FileEvents := setKey loop.FileEvents (getFeKey fd mask) none }
  let r := epollCtl l1.epoll EpollOp.del fd (getEpollEvent mask)
  { l1 with epoll := r.1 }

/-- src/ae.go:127-141. `now` is the GetMsTime read at line 135; returns the
updated loop and the assigned id. -/
def AeCreateTimeEvent (loop : AeEventLoop) (mask : TeType) (duration : Int)
    (proc : Nat) (clientData : Nat) (now : Int) : AeEventLoop × Nat :=
  let id := loop.timeEventNextId
  let te : AeTimeEvent :=
    { id := id, mask := mask, when := now + duration, duration := duration,
      timeProc := proc, clientData := clientData }
  ({ loop with
      TimeEventHead := te :: loop.TimeEventHead
      timeEventNextId := loop.timeEventNextId + 1 }, id)

/-- src/ae.go:144-159. Unlinks the first node with the given id, if any. -/
def deleteTeList : List AeTimeEvent → Nat → List AeTimeEvent
  | [], _ => []
  | t :: rest, id => if t.id = id then rest else t :: deleteTeList rest id

/-- src/ae.go:143-160. -/
def AeDeleteTimeEvent (loop : AeEventLoop) (id : Nat) : AeEventLoop :=
  { loop with TimeEventHead := deleteTeList loop.TimeEventHead id }

/-- The in-place `te.when = GetMsTime() + te.duration` of src/ae.go:166:
rewrite the `when` of the list entry carrying the id (the collected node,
when it is still linked). -/
def updateWhen (loop : AeEventLoop) (id : Nat) (w : Int) : AeEventLoop :=
  { loop with
    TimeEventHead :=
      loop.TimeEventHead.map (fun t => if t.id = id then { t with when := w } else t) }

/-- src/ae.go:163-169, one iteration of the timer loop: invoke the callback,
then either reschedule in place (AE_NORMAL, `nowAfter` being the GetMsTime
read after the callback returned) or delete by id (AE_ONCE). -/
def stepTe (cb : CbEnv) (loop : AeEventLoop) (te : AeTimeEvent) (nowAfter : Int) :
    AeEventLoop :=
  let l1 := cb.timeCb te.timeProc loop te.id te.clientData
  if te.mask = TeType.AE_NORMAL then updateWhen l1 te.id (nowAfter + te.duration)
  else AeDeleteTimeEvent l1 te.id

/-- src/ae.go:171-174, one iteration of the file-event loop: invoke the
callback, then unconditionally delete the (fd, mask) registration. -/
def stepFe (cb : CbEnv) (loop : AeEventLoop) (fe : AeFileEvent) : AeEventLoop :=
  AeDeleteFileEvent (cb.fileCb fe.fileProc loop fe.fd fe.clientData) fe.fd fe.mask

/-- src/ae.go:163-170. `nowOf n` is the GetMsTime read in the AE_NORMAL
branch of the n-th processed timer. -/
def processTes (cb : CbEnv) : AeEventLoop → List AeTimeEvent → (Nat → Int) →
    AeEventLoop × List TraceEv
  | loop, [], _ => (loop, [])
  | loop, te :: rest, nowOf =>
    let l1 := stepTe cb loop te (nowOf 0)
    let r := processTes cb l1 rest (fun n => nowOf (n + 1))
    (r.1, TraceEv.teFired te.id :: r.2)

/-- src/ae.go:171-174. -/
def processFes (cb : CbEnv) : AeEventLoop → List AeFileEvent →
    AeEventLoop × List TraceEv
  | loop, [] => (loop, [])
  | loop, fe :: rest =>
    let l1 := stepFe cb loop fe
    let r := processFes cb l1 rest
    (r.1, TraceEv.feFired fe.fd fe.mask :: r.2)

/-- src/ae.go:162-175: due timers first, then ready file events, each in
collected order; the trace records every callback invocation in order. -/
def AeProcessEvents (cb : CbEnv) (loop : AeEventLoop) (tes : List AeTimeEvent)
    (fes : List AeFileEvent) (nowOf : Nat → Int) : AeEventLoop × List TraceEv :=
  let r1 := processTes cb loop tes nowOf
  let r2 := processFes cb r1.1 fes
  (r2.1, r1.2 ++ r2.2)

/-- src/ae.go:177-187. `now` is the GetMsTime read at line 178. -/
def nearestTime (loop : AeEventLoop) (now : Int) : Int :=
  loop.TimeEventHead.foldl (fun nearest te => if te.when < nearest then te.when else nearest)
    (now + 1000)

/-- src/ae.go:191-194: the millisecond bound handed to EpollWait. -/
def aeWaitTimeout (loop : AeEventLoop) (now1 now2 : Int) : Int :=
  let t := nearestTime loop now1 - now2
  if t ≤ 0 then 10 else t

/-- One entry of the EpollWait result array. -/
structure EpollEvt where
  events : Nat
  fd : Int
deriving DecidableEq, Repr

/-- src/ae.go:203-215, the body of the readiness-collection loop for one
returned epoll event: readable interest is checked first, writable only in
the else branch. -/
def collectOne (loop : AeEventLoop) (ev : EpollEvt) : List AeFileEvent :=
  if ev.events &&& EPOLLIN ≠ 0 then
    (loop.FileEvents (getFeKey ev.fd FeType.AE_READABLE)).toList
  else if ev.events &&& EPOLLOUT ≠ 0 then
    (loop.FileEvents (getFeKey ev.fd FeType.AE_WRITABLE)).toList
  else []

def collectFes (loop : AeEventLoop) (evs : List EpollEvt) : List AeFileEvent :=
  evs.flatMap (collectOne loop)

/-- src/ae.go:189-228. `now1`/`now2` are the two clock reads of line 191,
`nowTe` the read of line 218; `waitRes` is the EpollWait outcome supplied by
the kernel (`none` = the call failed). On failure the nil slices and the
error are returned at once. -/
def AeWait (loop : AeEventLoop) (now1 now2 nowTe : Int)
    (waitRes : Option (List EpollEvt)) :
    List AeTimeEvent × List AeFileEvent × Bool :=
  let _timeout := aeWaitTimeout loop now1 now2
  match waitRes with
  | none => ([], [], true)
  | some evs =>
    let fes := collectFes loop evs
    let tes := loop.TimeEventHead.filter (fun te => te.when < nowTe)
    (tes, fes, false)

/-- The per-iteration environment: the clock reads and the kernel response
one pass of the AeMain body consumes. -/
structure IterEnv where
  now1 : Int
  now2 : Int
  nowTe : Int
  waitRes : Option (List EpollEvt)
  nowOf : Nat → Int

/-- src/ae.go:233-237, one pass of the AeMain loop body: wait, set the stop
flag on error, then process whatever was returned. -/
def aeIter (cb : CbEnv) (loop : AeEventLoop) (e : IterEnv) :
    AeEventLoop × List TraceEv :=
  let w := AeWait loop e.now1 e.now2 e.nowTe e.waitRes
  let l1 := if w.2.2 then { loop with stop := true } else loop
  AeProcessEvents cb l1 w.1 w.2.1 e.nowOf

/-- src/ae.go:232-238, the `for eventLoop.stop != true` loop, fuel-bounded
and driven by a script of per-iteration environments. -/
def aeMainLoop (cb : CbEnv) : Nat → AeEventLoop → List IterEnv →
    AeEventLoop × List TraceEv
  | 0, loop, _ => (loop, [])
  | fuel + 1, loop, envs =>
    if loop.stop then (loop, [])
    else
      match envs with
      | [] => (loop, [])
      | e :: rest =>
        let r1 := aeIter cb loop e
        let r2 := aeMainLoop cb fuel r1.1 rest
        (r2.1, r1.2 ++ r2.2)

/-- src/ae.go:230-239: clear the stop flag, then run the loop. -/
def AeMain (cb : CbEnv) (fuel : Nat) (loop : AeEventLoop) (envs : List IterEnv) :
    AeEventLoop × List TraceEv :=
  aeMainLoop cb fuel { loop with stop := false } envs

/-- Registry well-formedness: every stored file event sits under the key
built from its own descriptor and direction. AeCreateFileEvent stores events
this way and AeDeleteFileEvent only clears keys, so every state reached
through the API satisfies this. -/
def wfRegistry (loop : AeEventLoop) : Prop :=
  ∀ k fe, loop.FileEvents k = some fe → k = getFeKey fe.fd fe.mask

/-- Callbacks that leave the loop untouched. -/
def cbId : CbEnv where
  fileCb := fun _ l _ _ => l
  timeCb := fun _ l _ _ => l

/-- A constant clock for concrete runs. -/
def now0 : Nat → Int := fun _ => 0

/-- An iteration environment whose EpollWait call fails. -/
def envErr : IterEnv where
  now1 := 0
  now2 := 0
  nowTe := 0
  waitRes := none
  nowOf := now0

/-- Callback interpretation where tag 1 unregisters (2, Readable). -/
def cbC2 : CbEnv where
  fileCb := fun tag l _ _ =>
    if tag = 1 then AeDeleteFileEvent l 2 FeType.AE_READABLE else l
  timeCb := fun _ l _ _ => l

/-- A loop with Readable registrations on descriptors 1 (callback tag 1)
and 2 (callback tag 0). -/
def loopC2 : AeEventLoop :=
  AeCreateFileEvent (AeCreateFileEvent AeCreateEventLoop 1 FeType.AE_READABLE 1 0)
    2 FeType.AE_READABLE 0 0

/-- Both descriptors report readable. -/
def evsC2 : List EpollEvt := [⟨EPOLLIN, 1⟩, ⟨EPOLLIN, 2⟩]

/-- A loop with a Readable registration on descriptor 1 and one timer, for
instantiating snapshot-cancellation. -/
def loopW2 : AeEventLoop where
  FileEvents := setKey (fun _ => none) 1
    (some { fd := 1, mask := FeType.AE_READABLE, fileProc := 0, clientData := 0 })
  TimeEventHead := [⟨1, TeType.AE_NORMAL, 0, 5, 0, 0⟩]
  epoll := setKey (fun _ => none) 1 (some EPOLLIN)
  timeEventNextId := 2
  stop := false

/-- A loop with a Readable registration on descriptor 5. -/
def loopC3 : AeEventLoop :=
  AeCreateFileEvent AeCreateEventLoop 5 FeType.AE_READABLE 0 0

/-- Register Readable on 5, then unregister (5, Writable): the registry
still holds the Readable entry, but EPOLL_CTL_DEL removed the kernel entry
for descriptor 5, so the next epoll_ctl on it fails. -/
def loopW5 : AeEventLoop :=
  AeDeleteFileEvent (AeCreateFileEvent AeCreateEventLoop 5 FeType.AE_READABLE 0 0)
    5 FeType.AE_WRITABLE

/-- A loop holding one recurring timer (id 1, interval 5). -/
def loopN : AeEventLoop :=
  (AeCreateTimeEvent AeCreateEventLoop TeType.AE_NORMAL 5 0 0 0).1

def teN : AeTimeEvent :=
  { id := 1, mask := TeType.AE_NORMAL, when := 5, duration := 5,
    timeProc := 0, clientData := 0 }

/-- A loop holding one one-shot timer (id 1, interval 5). -/
def loopO : AeEventLoop :=
  (AeCreateTimeEvent AeCreateEventLoop TeType.AE_ONCE 5 0 0 0).1

def teO : AeTimeEvent :=
  { id := 1, mask := TeType.AE_ONCE, when := 5, duration := 5,
    timeProc := 0, clientData := 0 }

/-- A loop with a Writable registration on descriptor 7 and no Readable one. -/
def loopW9 : AeEventLoop :=
  AeCreateFileEvent AeCreateEventLoop 7 FeType.AE_WRITABLE 0 0

/-- A loop with two timers registered in sequence (ids 1 then 2), both due
at any time past 1. -/
def loopT2 : AeEventLoop :=
  (AeCreateTimeEvent (AeCreateTimeEvent AeCreateEventLoop TeType.AE_NORMAL 1 0 0 0).1
    TeType.AE_NORMAL 1 0 0 0).1

/-- A loop with a Writable registration on descriptor 3. -/
def loopW1 : AeEventLoop :=
  AeCreateFileEvent AeCreateEventLoop 3 FeType.AE_WRITABLE 0 0

/-! Helper lemmas shared across the development. -/

theorem processTes_trace (cb : CbEnv) (tes : List AeTimeEvent) :
    ∀ (loop : AeEventLoop) (nowOf : Nat → Int),
    (processTes cb loop tes nowOf).2 = tes.map (fun te => TraceEv.teFired te.id) := by
  induction tes with
  | nil => intro loop nowOf; rfl
  | cons te rest ih => intro loop nowOf; simp [processTes, ih]

theorem processFes_trace (cb : CbEnv) (fes : List AeFileEvent) :
    ∀ loop : AeEventLoop,
    (processFes cb loop fes).2 = fes.map (fun fe => TraceEv.feFired fe.fd fe.mask) := by
  induction fes with
  | nil => intro loop; rfl
  | cons fe rest ih => intro loop; simp [processFes, ih]

theorem AeProcessEvents_trace (cb : CbEnv) (loop : AeEventLoop)
    (tes : List AeTimeEvent) (fes : List AeFileEvent) (nowOf : Nat → Int) :
    (AeProcessEvents cb loop tes fes nowOf).2
      = tes.map (fun te => TraceEv.teFired te.id)
        ++ fes.map (fun fe => TraceEv.feFired fe.fd fe.mask) := by
  simp [AeProcessEvents, processTes_trace, processFes_trace]

theorem aeMainLoop_stopped (cb : CbEnv) (fuel : Nat) (loop : AeEventLoop)
    (envs : List IterEnv) (h : loop.stop = true) :
    aeMainLoop cb fuel loop envs = (loop, []) := by
  cases fuel with
  | zero => rfl
  | succ n => simp [aeMainLoop, h]

theorem epollCtl_fail_eq (ep : Int → Option Nat) (op : EpollOp) (fd : Int)
    (events : Nat) (h : (epollCtl ep op fd events).2 = true) :
    (epollCtl ep op fd events).1 = ep := by
  cases op <;> cases hep : ep fd <;> simp_all [epollCtl]

theorem getFeKey_dir_ne (fd : Int) (hfd : fd ≠ 0) (m m2 : FeType) (hm : m ≠ m2) :
    getFeKey fd m2 ≠ getFeKey fd m := by
  cases m <;> cases m2 <;> simp_all [getFeKey] <;> omega

theorem foldr_min_init_swap (ws : List Int) :
    ∀ a b : Int, ws.foldr min (min a b) = min b (ws.foldr min a) := by
  induction ws with
  | nil => intro a b; exact min_comm a b
  | cons c ws ih =>
    intro a b
    simp only [List.foldr_cons, ih]
    exact min_left_comm c b (ws.foldr min a)

theorem foldl_nearest_eq_foldr_min (ws : List Int) :
    ∀ a : Int,
    ws.foldl (fun n w => if w < n then w else n) a = ws.foldr min a := by
  induction ws with
  | nil => intro a; rfl
  | cons w ws ih =>
    intro a
    have hmin : (if w < a then w else a) = min a w := by
      rcases lt_or_le w a with h | h
      · simp [h, min_eq_right h.le]
      · simp [not_lt.2 h, min_eq_left h]
    simp only [List.foldl_cons, List.foldr_cons, hmin, ih, foldr_min_init_swap]

theorem foldr_min_le_init (ws : List Int) (a : Int) : ws.foldr min a ≤ a := by
  induction ws with
  | nil => exact le_refl a
  | cons w ws ih => exact (min_le_right w _).trans ih

theorem foldr_min_le_mem (ws : List Int) (a : Int) :
    ∀ w ∈ ws, ws.foldr min a ≤ w := by
  induction ws with
  | nil => intro w hw; cases hw
  | cons c ws ih =>
    intro w hw
    rcases List.mem_cons.1 hw with rfl | hw
    · exact min_le_left w _
    · exact (min_le_right c _).trans (ih w hw)

theorem nearestTime_eq_foldr (loop : AeEventLoop) (now : Int) :
    nearestTime loop now
      = (loop.TimeEventHead.map (fun te => te.when)).foldr min (now + 1000) := by
  rw [nearestTime, ← foldl_nearest_eq_foldr_min, List.foldl_map]

theorem collectOne_mem (loop : AeEventLoop) (ev : EpollEvt) (fe : AeFileEvent)
    (h : fe ∈ collectOne loop ev) :
    loop.FileEvents (getFeKey ev.fd FeType.AE_READABLE) = some fe
      ∨ loop.FileEvents (getFeKey ev.fd FeType.AE_WRITABLE) = some fe := by
  unfold collectOne at h
  split_ifs at h
  · left
    cases hl : loop.FileEvents (getFeKey ev.fd FeType.AE_READABLE) with
    | none => rw [hl] at h; cases h
    | some a => rw [hl] at h; simp [Option.toList] at h; subst h; rfl
  · right
    cases hl : loop.FileEvents (getFeKey ev.fd FeType.AE_WRITABLE) with
    | none => rw [hl] at h; cases h
    | some a => rw [hl] at h; simp [Option.toList] at h; subst h; rfl
  · cases h

theorem mem_collectFes (loop : AeEventLoop) (evs : List EpollEvt)
    (fe : AeFileEvent) (hwf : wfRegistry loop) (h : fe ∈ collectFes loop evs) :
    loop.FileEvents (getFeKey fe.fd fe.mask) = some fe := by
  rw [collectFes, List.mem_flatMap] at h
  obtain ⟨ev, _, hone⟩ := h
  rcases collectOne_mem loop ev fe hone with hl | hl
  · rw [← hwf _ _ hl]; exact hl
  · rw [← hwf _ _ hl]; exact hl

theorem deleteTeList_not_mem (id : Nat) :
    ∀ l : List AeTimeEvent, (l.map AeTimeEvent.id).Nodup →
    id ∉ (deleteTeList l id).map AeTimeEvent.id := by
  intro l
  induction l with
  | nil => intro _; simp [deleteTeList]
  | cons t rest ih =>
    intro h
    rw [List.map_cons, List.nodup_cons] at h
    rw [deleteTeList]
    by_cases ht : t.id = id
    · rw [if_pos ht, ← ht]
      exact h.1
    · rw [if_neg ht, List.map_cons]
      intro hmem
      rcases List.mem_cons.1 hmem with he | hmem2
      · exact ht he.symm
      · exact ih h.2 hmem2

/-! The claims. -/

/-- Claim C6: every file-event firing is single-shot. `stepFe` is the
dispatch of one ready file event (src/ae.go:171-174): the callback runs,
then the registration for that (descriptor, direction) pair is removed
unconditionally — in particular even if the callback re-registered it. -/
theorem file_event_single_shot (cb : CbEnv) (loop : AeEventLoop) (fe : AeFileEvent) :
    (stepFe cb loop fe).FileEvents (getFeKey fe.fd fe.mask) = none := by
  simp [stepFe, AeDeleteFileEvent, setKey]

/-- Claim C8: `nearestTime` returns the minimum of `now + 1000` and the
deadlines of the active timers; with no timers it returns `now + 1000`, it
never exceeds `now + 1000`, and the EpollWait timeout derived from it never
exceeds 1000 ms. -/
theorem nearestTime_min_spec (loop : AeEventLoop) (now : Int) :
    nearestTime loop now
        = (loop.TimeEventHead.map (fun te => te.when)).foldr min (now + 1000)
      ∧ nearestTime loop now ≤ now + 1000
      ∧ (loop.TimeEventHead = [] → nearestTime loop now = now + 1000)
      ∧ (∀ te ∈ loop.TimeEventHead, nearestTime loop now ≤ te.when)
      ∧ aeWaitTimeout loop now now ≤ 1000 := by
  have heq := nearestTime_eq_foldr loop now
  have hle : nearestTime loop now ≤ now + 1000 := by
    rw [heq]; exact foldr_min_le_init _ _
  refine ⟨heq, hle, ?_, ?_, ?_⟩
  · intro h; rw [heq, h]; rfl
  · intro te hte
    rw [heq]
    exact foldr_min_le_mem _ _ te.when (List.mem_map_of_mem (fun t => t.when) hte)
  · rw [aeWaitTimeout]
    split_ifs with h
    · omega
    · omega

/-- Claim C5: if the epoll_ctl call made by AeCreateFileEvent fails, the
call installs nothing — the loop (registry and kernel state) is exactly as
before — and the function returns no error to the caller (its result type
carries none). -/
theorem create_file_event_os_failure (loop : AeEventLoop) (fd : Int)
    (mask : FeType) (proc clientData : Nat)
    (h : (epollCtl loop.epoll (feCtlOp loop fd) fd (getEpollEvent mask)).2 = true) :
    AeCreateFileEvent loop fd mask proc clientData = loop := by
  rw [AeCreateFileEvent]
  simp only [h, if_true, epollCtl_fail_eq _ _ _ _ h]

/-- Claim C5 witness: register Readable on 5, unregister (5, Writable) —
EPOLL_CTL_DEL drops the whole kernel entry, so the next registration on 5
picks EPOLL_CTL_MOD and fails; the loop is returned unchanged. -/
theorem create_file_event_os_failure_witness :
    (epollCtl loopW5.epoll (feCtlOp loopW5 5) 5
        (getEpollEvent FeType.AE_WRITABLE)).2 = true
      ∧ AeCreateFileEvent loopW5 5 FeType.AE_WRITABLE 1 2 = loopW5 :=
  ⟨by decide, create_file_event_os_failure loopW5 5 FeType.AE_WRITABLE 1 2 (by decide)⟩

/-- Claim C4: when EpollWait reports an error, AeWait hands back empty
batches together with the error; the driver sets the stop flag, the dispatch
of that iteration fires no callback, and the loop exits without retrying the
wait — the run result does not depend on the remaining environment. -/
theorem run_stops_on_wait_error (cb : CbEnv) (fuel : Nat) (loop : AeEventLoop)
    (e : IterEnv) (rest : List IterEnv) (h : e.waitRes = none) :
    AeMain cb (fuel + 1) loop (e :: rest) = ({ loop with stop := true }, []) := by
  have hiter : aeIter cb { loop with stop := false } e
      = ({ loop with stop := true }, []) := by
    simp [aeIter, AeWait, h, AeProcessEvents, processTes, processFes]
  rw [AeMain]
  rw [show aeMainLoop cb (fuel + 1) { loop with stop := false } (e :: rest)
      = (let r1 := aeIter cb { loop with stop := false } e
         let r2 := aeMainLoop cb fuel r1.1 rest
         (r2.1, r1.2 ++ r2.2)) from rfl]
  rw [hiter]
  have hst := aeMainLoop_stopped cb fuel { loop with stop := true } rest rfl
  simp [hst]

/-- Claim C4 witness. -/
theorem run_stops_on_wait_error_witness :
    envErr.waitRes = none
      ∧ AeMain cbId 1 AeCreateEventLoop [envErr]
          = ({ AeCreateEventLoop with stop := true }, []) :=
  ⟨rfl, run_stops_on_wait_error cbId 0 AeCreateEventLoop envErr [] rfl⟩

/-- Claim C9: an epoll event flagged ready in both directions contributes
exactly the Readable registration of its descriptor to the collected batch
(src/ae.go:203-215, the else-if); the Writable registration is never
consulted — in particular, with no Readable registration present the entry
contributes nothing even though a Writable registration may be ready. -/
theorem both_ready_yields_readable_only (loop : AeEventLoop) (ev : EpollEvt)
    (hin : ev.events &&& EPOLLIN ≠ 0) (_hout : ev.events &&& EPOLLOUT ≠ 0) :
    collectOne loop ev = (loop.FileEvents (getFeKey ev.fd FeType.AE_READABLE)).toList
      ∧ (loop.FileEvents (getFeKey ev.fd FeType.AE_READABLE) = none →
          collectOne loop ev = []) := by
  constructor
  · simp [collectOne, hin]
  · intro hnone; simp [collectOne, hin, hnone]

/-- Claim C9 witness: descriptor 7 has only a Writable registration; an
event with both readiness bits (events = 5) yields nothing. -/
theorem both_ready_yields_readable_only_witness :
    collectOne loopW9 ⟨5, 7⟩ = []
      ∧ (loopW9.FileEvents (getFeKey 7 FeType.AE_WRITABLE)).isSome = true :=
  ⟨(both_ready_yields_readable_only loopW9 ⟨5, 7⟩ (by decide) (by decide)).2 (by decide),
   by decide⟩

/-- Claim C1 counterexample: at descriptor 0 the composite key collapses
(`0 = 0 * -1`), so registering Writable on descriptor 0 overwrites the
stored Readable registration — the two directions are not independent
entries for every descriptor. -/
theorem file_event_directions_counterexample :
    (AeCreateFileEvent AeCreateEventLoop 0 FeType.AE_READABLE 1 0).FileEvents
        (getFeKey 0 FeType.AE_READABLE)
      = some ⟨0, FeType.AE_READABLE, 1, 0⟩
    ∧ (AeCreateFileEvent (AeCreateFileEvent AeCreateEventLoop 0 FeType.AE_READABLE 1 0)
        0 FeType.AE_WRITABLE 2 0).FileEvents (getFeKey 0 FeType.AE_READABLE)
      = some ⟨0, FeType.AE_WRITABLE, 2, 0⟩ := by
  decide

/-- Claim C1 (amended: for every nonzero descriptor): registering or
unregistering one direction leaves the stored registration of the other
direction unchanged, because the two directions key distinct registry
entries whenever the descriptor is nonzero. -/
theorem file_event_directions_independent (loop : AeEventLoop) (fd : Int)
    (m m2 : FeType) (proc clientData : Nat) (hfd : fd ≠ 0) (hm : m ≠ m2) :
    (AeCreateFileEvent loop fd m proc clientData).FileEvents (getFeKey fd m2)
        = loop.FileEvents (getFeKey fd m2)
      ∧ (AeDeleteFileEvent loop fd m).FileEvents (getFeKey fd m2)
        = loop.FileEvents (getFeKey fd m2) := by
  have hk : getFeKey fd m2 ≠ getFeKey fd m := getFeKey_dir_ne fd hfd m m2 hm
  constructor
  · rw [AeCreateFileEvent]
    split
    · rfl
    · simp [setKey, hk]
  · simp [AeDeleteFileEvent, setKey, hk]

/-- Claim C1 witness: on descriptor 3, unregistering Readable leaves the
Writable registration intact. -/
theorem file_event_directions_independent_witness :
    (3 : Int) ≠ 0
      ∧ (AeDeleteFileEvent loopW1 3 FeType.AE_READABLE).FileEvents
            (getFeKey 3 FeType.AE_WRITABLE)
          = loopW1.FileEvents (getFeKey 3 FeType.AE_WRITABLE) :=
  ⟨by decide,
   (file_event_directions_independent loopW1 3 FeType.AE_READABLE FeType.AE_WRITABLE
     0 0 (by decide) (by decide)).2⟩

/-- Claim C3 counterexample: descriptor 5 already holds a Readable
registration with kernel interest EPOLLIN; registering Writable issues
EPOLL_CTL_MOD carrying only EPOLLOUT, which replaces the interest set —
afterwards it is exactly EPOLLOUT, not EPOLLIN together with EPOLLOUT, so
the interest set does not additionally include the new direction on top of
the old one. -/
theorem create_file_event_interest_counterexample :
    loopC3.epoll 5 = some EPOLLIN
      ∧ (AeCreateFileEvent loopC3 5 FeType.AE_WRITABLE 0 0).epoll 5 = some EPOLLOUT
      ∧ (AeCreateFileEvent loopC3 5 FeType.AE_WRITABLE 0 0).epoll 5
          ≠ some (EPOLLIN ||| EPOLLOUT) := by
  decide

/-- Claim C3 (amended): if the descriptor already has any registration in
either direction, the call uses EPOLL_CTL_MOD and — when the kernel holds an
entry for the descriptor — the interest set afterwards is exactly the new
direction (the previous interest is replaced, not extended); otherwise the
call uses EPOLL_CTL_ADD and — when the kernel holds no entry — a fresh entry
carrying the new direction is added. -/
theorem create_file_event_ctl_op (loop : AeEventLoop) (fd : Int) (mask : FeType)
    (proc clientData : Nat) :
    (hasAnyFileEvent loop fd = true →
      feCtlOp loop fd = EpollOp.mod
        ∧ ∀ ev0, loop.epoll fd = some ev0 →
            (AeCreateFileEvent loop fd mask proc clientData).epoll fd
              = some (getEpollEvent mask))
    ∧ (hasAnyFileEvent loop fd = false →
      feCtlOp loop fd = EpollOp.add
        ∧ (loop.epoll fd = none →
            (AeCreateFileEvent loop fd mask proc clientData).epoll fd
              = some (getEpollEvent mask))) := by
  constructor
  · intro h
    refine ⟨by simp [feCtlOp, h], ?_⟩
    intro ev0 hep
    rw [AeCreateFileEvent]
    simp [feCtlOp, h, epollCtl, hep, setKey]
  · intro h
    refine ⟨by simp [feCtlOp, h], ?_⟩
    intro hep
    rw [AeCreateFileEvent]
    simp [feCtlOp, h, epollCtl, hep, setKey]

/-- Claim C3 witness: both branches at concrete states — descriptor 5 of
`loopC3` (already registered: MOD, interest becomes EPOLLOUT) and descriptor
5 of the fresh loop (not registered: ADD, fresh EPOLLIN entry). -/
theorem create_file_event_ctl_op_witness :
    feCtlOp loopC3 5 = EpollOp.mod
      ∧ (AeCreateFileEvent loopC3 5 FeType.AE_WRITABLE 0 0).epoll 5
          = some (getEpollEvent FeType.AE_WRITABLE)
      ∧ feCtlOp AeCreateEventLoop 5 = EpollOp.add
      ∧ (AeCreateFileEvent AeCreateEventLoop 5 FeType.AE_READABLE 0 0).epoll 5
          = some (getEpollEvent FeType.AE_READABLE) := by
  have h1 := (create_file_event_ctl_op loopC3 5 FeType.AE_WRITABLE 0 0).1 (by decide)
  have h2 := (create_file_event_ctl_op AeCreateEventLoop 5 FeType.AE_READABLE 0 0).2
    (by decide)
  exact ⟨h1.1, h1.2 EPOLLIN (by decide), h2.1, h2.2 (by decide)⟩

/-- Claim C7: dispatching one due timer (src/ae.go:163-169) depends only on
its kind after the callback returns. A Recurring (AE_NORMAL) timer keeps its
entry, whose deadline becomes the post-callback time plus its interval —
relative to the fire time, not the registration time — while entries with
other ids are exactly those the callback left; a OneShot (AE_ONCE) timer is
the AeDeleteTimeEvent of the state the callback left, and when ids are
distinct its id is gone from the active collection. -/
theorem timer_reschedule_by_kind (cb : CbEnv) (loop : AeEventLoop)
    (te : AeTimeEvent) (nowAfter : Int) :
    (te.mask = TeType.AE_NORMAL →
      ∀ t ∈ (stepTe cb loop te nowAfter).TimeEventHead,
        (t.id = te.id → t.when = nowAfter + te.duration)
        ∧ (t.id ≠ te.id →
            t ∈ (cb.timeCb te.timeProc loop te.id te.clientData).TimeEventHead))
    ∧ (te.mask = TeType.AE_ONCE →
      stepTe cb loop te nowAfter
          = AeDeleteTimeEvent (cb.timeCb te.timeProc loop te.id te.clientData) te.id
        ∧ (((cb.timeCb te.timeProc loop te.id te.clientData).TimeEventHead.map
              AeTimeEvent.id).Nodup →
            te.id ∉ (stepTe cb loop te nowAfter).TimeEventHead.map AeTimeEvent.id)) := by
  constructor
  · intro hmask t ht
    rw [stepTe, if_pos hmask] at ht
    rw [updateWhen] at ht
    simp only [List.mem_map] at ht
    obtain ⟨t0, ht0, heq⟩ := ht
    by_cases hid : t0.id = te.id
    · rw [if_pos hid] at heq
      constructor
      · intro _; rw [← heq]
      · intro hne; exact absurd (by rw [← heq]; exact hid) hne
    · rw [if_neg hid] at heq
      subst heq
      exact ⟨fun h => absurd h hid, fun _ => ht0⟩
  · intro hmask
    have hne : ¬te.mask = TeType.AE_NORMAL := by rw [hmask]; decide
    have hstep : stepTe cb loop te nowAfter
        = AeDeleteTimeEvent (cb.timeCb te.timeProc loop te.id te.clientData) te.id := by
      rw [stepTe, if_neg hne]
    refine ⟨hstep, ?_⟩
    intro hnd
    rw [hstep, AeDeleteTimeEvent]
    exact deleteTeList_not_mem te.id _ hnd

/-- Claim C7 witness: with identity callbacks, the recurring timer of
`loopN` is rescheduled to 100 + 5 and the one-shot timer of `loopO` is gone
after dispatch at time 100. -/
theorem timer_reschedule_by_kind_witness :
    (⟨1, TeType.AE_NORMAL, 105, 5, 0, 0⟩ : AeTimeEvent)
        ∈ (stepTe cbId loopN teN 100).TimeEventHead
      ∧ (⟨1, TeType.AE_NORMAL, 105, 5, 0, 0⟩ : AeTimeEvent).when = 100 + teN.duration
      ∧ teO.id ∉ (stepTe cbId loopO teO 100).TimeEventHead.map AeTimeEvent.id :=
  ⟨by decide,
   ((timer_reschedule_by_kind cbId loopN teN 100).1 rfl
     ⟨1, TeType.AE_NORMAL, 105, 5, 0, 0⟩ (by decide)).1 rfl,
   (timer_reschedule_by_kind cbId loopO teO 100).2 rfl |>.2 (by decide)⟩

/-- Claim C2 counterexample: the dispatcher iterates the snapshot taken by
AeWait, not the live registry. Both descriptors 1 and 2 are collected; the
callback of descriptor 1 unregisters (2, Readable), so that registration is
gone from the registry before the dispatcher reaches it — yet its callback
still fires in the same batch. -/
theorem cancellation_counterexample :
    (AeWait loopC2 0 0 0 (some evsC2)).2.1
        = [⟨1, FeType.AE_READABLE, 1, 0⟩, ⟨2, FeType.AE_READABLE, 0, 0⟩]
      ∧ (processFes cbC2 loopC2 [⟨1, FeType.AE_READABLE, 1, 0⟩]).1.FileEvents
          (getFeKey 2 FeType.AE_READABLE) = none
      ∧ TraceEv.feFired 2 FeType.AE_READABLE ∈
          (AeProcessEvents cbC2 loopC2 (AeWait loopC2 0 0 0 (some evsC2)).1
            (AeWait loopC2 0 0 0 (some evsC2)).2.1 now0).2 := by
  decide

/-- Claim C2 (amended): unregistering an event before the batch is
snapshotted by AeWait prevents its callback from firing in that batch — if
the (descriptor, direction) key is empty in a well-formed registry, and no
timer in the list carries the id, when AeWait collects, then no callback of
that key or id is invoked while dispatching what AeWait returned.
(Removal after the snapshot, by an earlier callback of the same batch, does
not prevent the firing: the dispatcher iterates the snapshot.) -/
theorem cancellation_before_snapshot (cb : CbEnv) (loop : AeEventLoop)
    (now1 now2 nowTe : Int) (evs : List EpollEvt) (nowOf : Nat → Int)
    (fd : Int) (mask : FeType) (id : Nat)
    (hwf : wfRegistry loop)
    (hfe : loop.FileEvents (getFeKey fd mask) = none)
    (hte : ∀ te ∈ loop.TimeEventHead, te.id ≠ id) :
    TraceEv.feFired fd mask ∉
      (AeProcessEvents cb loop (AeWait loop now1 now2 nowTe (some evs)).1
        (AeWait loop now1 now2 nowTe (some evs)).2.1 nowOf).2
    ∧ TraceEv.teFired id ∉
      (AeProcessEvents cb loop (AeWait loop now1 now2 nowTe (some evs)).1
        (AeWait loop now1 now2 nowTe (some evs)).2.1 nowOf).2 := by
  have hw1 : (AeWait loop now1 now2 nowTe (some evs)).1
      = loop.TimeEventHead.filter (fun te => te.when < nowTe) := rfl
  have hw2 : (AeWait loop now1 now2 nowTe (some evs)).2.1 = collectFes loop evs := rfl
  rw [hw1, hw2, AeProcessEvents_trace]
  constructor
  · intro hmem
    rcases List.mem_append.1 hmem with hm | hm
    · rcases List.mem_map.1 hm with ⟨te, _, habs⟩
      cases habs
    · rcases List.mem_map.1 hm with ⟨fe, hfes, habs⟩
      rw [TraceEv.feFired.injEq] at habs
      have hsome := mem_collectFes loop evs fe hwf hfes
      rw [habs.1, habs.2, hfe] at hsome
      cases hsome
  · intro hmem
    rcases List.mem_append.1 hmem with hm | hm
    · rcases List.mem_map.1 hm with ⟨te, htes, habs⟩
      rw [TraceEv.teFired.injEq] at habs
      exact hte te (List.mem_of_mem_filter htes) habs
    · rcases List.mem_map.1 hm with ⟨fe, _, habs⟩
      cases habs

/-- Claim C2 witness: in `loopW2` there is no (2, Readable) registration and
no timer with id 9 at snapshot time, so neither fires in the dispatched
batch (which does fire the registered descriptor 1 and timer 1). -/
theorem cancellation_before_snapshot_witness :
    TraceEv.feFired 2 FeType.AE_READABLE ∉
      (AeProcessEvents cbId loopW2 (AeWait loopW2 0 0 1 (some [⟨EPOLLIN, 1⟩])).1
        (AeWait loopW2 0 0 1 (some [⟨EPOLLIN, 1⟩])).2.1 now0).2
    ∧ TraceEv.teFired 9 ∉
      (AeProcessEvents cbId loopW2 (AeWait loopW2 0 0 1 (some [⟨EPOLLIN, 1⟩])).1
        (AeWait loopW2 0 0 1 (some [⟨EPOLLIN, 1⟩])).2.1 now0).2 :=
  cancellation_before_snapshot cbId loopW2 0 0 1 [⟨EPOLLIN, 1⟩] now0
    2 FeType.AE_READABLE 9
    (by
      intro k fe h
      by_cases hk : k = 1
      · subst hk
        simp [loopW2, setKey] at h
        subst h
        decide
      · simp [loopW2, setKey, hk] at h)
    (by decide) (by decide)

/-- Claim C10: AeCreateTimeEvent pushes the new timer onto the head of the
list and AeWait collects due timers by filtering head to tail, so when two
timers registered in sequence are both due, the dispatch trace fires the
more recently registered one (id i2) before the earlier one (id i1). -/
theorem timers_fire_lifo (cb : CbEnv) (loop : AeEventLoop)
    (m1 : TeType) (d1 : Int) (p1 c1 : Nat) (t1 : Int)
    (m2 : TeType) (d2 : Int) (p2 c2 : Nat) (t2 : Int)
    (l1 l2 : AeEventLoop) (i1 i2 : Nat)
    (now1 now2 nowTe : Int) (evs : List EpollEvt) (nowOf : Nat → Int)
    (h1 : AeCreateTimeEvent loop m1 d1 p1 c1 t1 = (l1, i1))
    (h2 : AeCreateTimeEvent l1 m2 d2 p2 c2 t2 = (l2, i2))
    (hdue1 : t1 + d1 < nowTe) (hdue2 : t2 + d2 < nowTe) :
    ∃ tr, (AeProcessEvents cb l2 (AeWait l2 now1 now2 nowTe (some evs)).1
            (AeWait l2 now1 now2 nowTe (some evs)).2.1 nowOf).2
          = TraceEv.teFired i2 :: TraceEv.teFired i1 :: tr := by
  have hl1 := congrArg Prod.fst h1
  have hi1 := congrArg Prod.snd h1
  subst hl1
  subst hi1
  have hl2 := congrArg Prod.fst h2
  have hi2 := congrArg Prod.snd h2
  subst hl2
  subst hi2
  have hw1 : (AeWait (AeCreateTimeEvent (AeCreateTimeEvent loop m1 d1 p1 c1 t1).1
        m2 d2 p2 c2 t2).1 now1 now2 nowTe (some evs)).1
      = ((AeCreateTimeEvent (AeCreateTimeEvent loop m1 d1 p1 c1 t1).1
          m2 d2 p2 c2 t2).1).TimeEventHead.filter (fun te => te.when < nowTe) := rfl
  have hlist : ((AeCreateTimeEvent (AeCreateTimeEvent loop m1 d1 p1 c1 t1).1
        m2 d2 p2 c2 t2).1).TimeEventHead
      = (⟨(AeCreateTimeEvent loop m1 d1 p1 c1 t1).1.timeEventNextId, m2, t2 + d2,
          d2, p2, c2⟩ : AeTimeEvent)
        :: (⟨loop.timeEventNextId, m1, t1 + d1, d1, p1, c1⟩ : AeTimeEvent)
        :: loop.TimeEventHead := rfl
  refine ⟨(loop.TimeEventHead.filter (fun te => te.when < nowTe)).map
      (fun te => TraceEv.teFired te.id)
    ++ ((AeWait (AeCreateTimeEvent (AeCreateTimeEvent loop m1 d1 p1 c1 t1).1
          m2 d2 p2 c2 t2).1 now1 now2 nowTe (some evs)).2.1).map
      (fun fe => TraceEv.feFired fe.fd fe.mask), ?_⟩
  rw [AeProcessEvents_trace, hw1, hlist]
  rw [List.filter_cons_of_pos (by simpa using hdue2),
    List.filter_cons_of_pos (by simpa using hdue1)]
  simp
  exact ⟨rfl, rfl⟩

/-- Claim C10 witness: two timers registered in sequence (ids 1 then 2),
both due at time 10: the trace fires id 2 before id 1. -/
theorem timers_fire_lifo_witness :
    ∃ tr, (AeProcessEvents cbId loopT2 (AeWait loopT2 0 0 10 (some [])).1
            (AeWait loopT2 0 0 10 (some [])).2.1 now0).2
          = TraceEv.teFired 2 :: TraceEv.teFired 1 :: tr :=
  timers_fire_lifo cbId AeCreateEventLoop TeType.AE_NORMAL 1 0 0 0
    TeType.AE_NORMAL 1 0 0 0
    (AeCreateTimeEvent AeCreateEventLoop TeType.AE_NORMAL 1 0 0 0).1 loopT2 1 2
    0 0 10 [] now0 rfl rfl (by decide) (by decide)

/-- Claim C8 witness: with no timers the bound is exactly 1000 ms past now;
with the timer of `loopN` (deadline 5) the result is bounded by that
deadline and the derived timeout stays within one second. -/
theorem nearestTime_min_spec_witness :
    nearestTime AeCreateEventLoop 0 = 0 + 1000
      ∧ nearestTime loopN 0 ≤ teN.when
      ∧ aeWaitTimeout loopN 0 0 ≤ 1000 :=
  ⟨(nearestTime_min_spec AeCreateEventLoop 0).2.2.1 rfl,
   (nearestTime_min_spec loopN 0).2.2.2.1 teN (by decide),
   (nearestTime_min_spec loopN 0).2.2.2.2⟩
